import Mathlib

/-!
Verification of the HTTP media-extraction service in `you.py`.

The Python program is shallowly embedded: JSON-like dictionary values become
the inductive `PyVal`, raised exceptions become `Except PyErr`, the yt-dlp
call is an abstract parameter, and the two Flask handlers become pure
functions from a request value to a response paired with a record of whether
(and with which arguments) the extraction adapter was invoked.
-/

namespace YouApi

/-- Values appearing in the JSON-like dictionaries that the program builds.
The constructor `none` is Python `None`. -/
inductive PyVal where
  | none : PyVal
  | str : String → PyVal
  | int : Int → PyVal
  | list : List PyVal → PyVal
  | dict : List (String × PyVal) → PyVal

/-- The Python exceptions the embedded code can raise: `ValueError` is caught
specially by the download handler; `typeError` models `TypeError` from an
unsupported comparison; `other` covers every remaining exception class. -/
inductive PyErr where
  | valueError : String → PyErr
  | typeError : String → PyErr
  | other : String → PyErr

/-- Python `str(e)` on an exception. -/
def PyErr.msg : PyErr → String
  | .valueError m => m
  | .typeError m => m
  | .other m => m

/-- Embed an optional string the way a Python dict holds `str | None`. -/
def optStr : Option String → PyVal
  | Option.none => .none
  | some s => .str s

/-- Embed an optional integer the way a Python dict holds `int | None`. -/
def optInt : Option Int → PyVal
  | Option.none => .none
  | some n => .int n

/-- Python `d.get(k, dflt)` on an insertion-ordered dictionary. -/
def pyGet (d : List (String × PyVal)) (k : String) (dflt : PyVal) : PyVal :=
  match d with
  | [] => dflt
  | p :: ps => if p.1 = k then p.2 else pyGet ps k dflt

/-- Python truthiness, as used by `if not x` in the program. -/
def pyFalsy : PyVal → Bool
  | .none => true
  | .str s => s == ""
  | .int n => n == 0
  | .list xs => xs.isEmpty
  | .dict ps => ps.isEmpty

/-- Python `==` restricted to the scalar values this program ever compares
(`None`, strings, integers); the program never compares lists or dicts with
`==`, so those cases are mapped to an error marker that is provably never
reached from the embedded code. -/
def pyEqVal : PyVal → PyVal → Except PyErr Bool
  | .none, .none => .ok true
  | .int a, .int b => .ok (a = b)
  | .str a, .str b => .ok (a = b)
  | .none, .int _ => .ok false
  | .int _, .none => .ok false
  | .none, .str _ => .ok false
  | .str _, .none => .ok false
  | .int _, .str _ => .ok false
  | .str _, .int _ => .ok false
  | _, _ => .error (.typeError "unmodelled equality")

/-- Python `>` on scalar values: defined on two ints or two strings, and a
`TypeError` whenever `None` (or a mixed pair) is compared, exactly as in
CPython. -/
def pyGtVal : PyVal → PyVal → Except PyErr Bool
  | .int a, .int b => .ok (decide (b < a))
  | .str a, .str b => .ok (decide (b < a))
  | _, _ => .error (.typeError "unsupported operand types for comparison")

/-- Python `>` on a pair (2-tuple): find the first component where the two
tuples differ under `==` and compare there with `>`; equal tuples give
`False`. `==` on `None` is total but `>` on `None` raises, as in CPython. -/
def pyGtPair : PyVal × PyVal → PyVal × PyVal → Except PyErr Bool
  | (a1, a2), (b1, b2) =>
    match pyEqVal a1 b1 with
    | .error e => .error e
    | .ok true =>
      match pyEqVal a2 b2 with
      | .error e => .error e
      | .ok true => .ok false
      | .ok false => pyGtVal a2 b2
    | .ok false => pyGtVal a1 b1

/-- CPython `max(best :: rest, key := key)` with key comparison `gtc`:
iterate over `rest` keeping the current maximum and replacing it only when
the new key compares strictly greater, so ties keep the earliest element;
a failing comparison raises out of `max`. -/
def pyMaxRun {β κ : Type} (gtc : κ → κ → Except PyErr Bool) (key : β → κ) :
    β → List β → Except PyErr β
  | best, [] => .ok best
  | best, x :: xs =>
    match gtc (key x) (key best) with
    | .error e => .error e
    | .ok b => pyMaxRun gtc key (if b then x else best) xs

/-- One raw format descriptor from the yt-dlp info dict. Every field the
program reads with `.get` is optional, `Option.none` standing for a missing
key or a `None` value; yt-dlp marks an absent track with the *string*
`"none"` in `acodec`/`vcodec`, which is distinct from `Option.none`. -/
structure RawFormat where
  format_id : Option String := Option.none
  ext : Option String := Option.none
  filesize : Option Int := Option.none
  asr : Option Int := Option.none
  url : Option String := Option.none
  acodec : Option String := Option.none
  vcodec : Option String := Option.none
  width : Option Int := Option.none
  height : Option Int := Option.none
  fps : Option Int := Option.none

/-- The info dict returned by a successful `ydl.extract_info` call: the
metadata fields the program copies verbatim, plus the raw format list.
`tags`/`categories` are `Option` because the program reads them with a
`[]` default for a missing key. -/
structure RawInfo where
  title : PyVal := .none
  id : PyVal := .none
  duration : PyVal := .none
  duration_string : PyVal := .none
  uploader : PyVal := .none
  channel_url : PyVal := .none
  thumbnail : PyVal := .none
  description : PyVal := .none
  tags : Option PyVal := Option.none
  categories : Option PyVal := Option.none
  view_count : PyVal := .none
  like_count : PyVal := .none
  webpage_url : PyVal := .none
  upload_date : PyVal := .none
  formats : List RawFormat := []

/-- The candidate dict the audio branch appends (`you.py` lines 66-72),
with the dict literal's insertion order. -/
def mkAudioFmt (f : RawFormat) : List (String × PyVal) :=
  [("format_id", optStr f.format_id), ("ext", optStr f.ext),
   ("filesize", optInt f.filesize), ("asr", optInt f.asr),
   ("url", optStr f.url)]

/-- The candidate dict the video branch appends (`you.py` lines 82-90). -/
def mkVideoFmt (f : RawFormat) : List (String × PyVal) :=
  [("format_id", optStr f.format_id), ("ext", optStr f.ext),
   ("width", optInt f.width), ("height", optInt f.height),
   ("filesize", optInt f.filesize), ("fps", optInt f.fps),
   ("url", optStr f.url)]

/-- The audio for-loop (`you.py` lines 64-72): keep formats with
`acodec != "none" and vcodec == "none"`, in order. -/
def buildAudioList : List RawFormat → List (List (String × PyVal))
  | [] => []
  | f :: fs =>
    if f.acodec ≠ some "none" ∧ f.vcodec = some "none" then
      mkAudioFmt f :: buildAudioList fs
    else buildAudioList fs

/-- The video for-loop (`you.py` lines 80-90): keep formats with
`vcodec != "none" and acodec != "none"`, in order. -/
def buildVideoList : List RawFormat → List (List (String × PyVal))
  | [] => []
  | f :: fs =>
    if f.vcodec ≠ some "none" ∧ f.acodec ≠ some "none" then
      mkVideoFmt f :: buildVideoList fs
    else buildVideoList fs

/-- The max-key the audio branch uses: `lambda x: x.get("asr", 0)`. -/
def audioKey (d : List (String × PyVal)) : PyVal := pyGet d "asr" (.int 0)

/-- The max-key the video branch uses:
`lambda x: (x.get("height", 0), x.get("fps", 0))`. -/
def videoKey (d : List (String × PyVal)) : PyVal × PyVal :=
  (pyGet d "height" (.int 0), pyGet d "fps" (.int 0))

/-- The media-type branches of `extract_info` (`you.py` lines 62-96): build
the candidate list and, when it is non-empty, run Python `max` over it and
read the winner's `url`; returns the candidate list together with the final
value of `selected_url` (Python `None` when the list was empty). -/
def selectFormats (info : RawInfo) (media_type : String) :
    Except PyErr (List (List (String × PyVal)) × PyVal) :=
  if media_type = "audio" then
    match buildAudioList info.formats with
    | [] => .ok ([], .none)
    | f :: fs =>
      match pyMaxRun pyGtVal audioKey f fs with
      | .error e => .error e
      | .ok best => .ok (f :: fs, pyGet best "url" .none)
  else if media_type = "video" then
    match buildVideoList info.formats with
    | [] => .ok ([], .none)
    | f :: fs =>
      match pyMaxRun pyGtPair videoKey f fs with
      | .error e => .error e
      | .ok best => .ok (f :: fs, pyGet best "url" .none)
  else .error (.valueError "Invalid media type")

/-- The result dict literal of `extract_info` (`you.py` lines 101-119), in
insertion order. -/
def resultDict (info : RawInfo) (media_type : String) (selected : PyVal)
    (fmts : List (List (String × PyVal))) : List (String × PyVal) :=
  [("title", info.title), ("id", info.id), ("duration", info.duration),
   ("duration_string", info.duration_string), ("uploader", info.uploader),
   ("channel_url", info.channel_url), ("thumbnail", info.thumbnail),
   ("description", info.description),
   ("tags", info.tags.getD (.list [])),
   ("categories", info.categories.getD (.list [])),
   ("view_count", info.view_count), ("like_count", info.like_count),
   ("webpage_url", info.webpage_url), ("upload_date", info.upload_date),
   ("media_type", .str media_type), ("stream_url", selected),
   ("available_formats", .list (fmts.map .dict))]

/-- `extract_info(youtube_url, media_type)` (`you.py` lines 49-123). The
yt-dlp call is the abstract parameter `ydl`: it may raise, or return `None`
(`ignoreerrors` mode), or return an info dict. The trailing
`except Exception: logger.error(...); raise` re-raises unchanged, so it is
the identity on the error path. -/
def extract_info (ydl : String → Except PyErr (Option RawInfo))
    (youtube_url media_type : String) :
    Except PyErr (List (String × PyVal)) :=
  match ydl youtube_url with
  | .error e => .error e
  | .ok Option.none => .error (.valueError "Could not extract video information")
  | .ok (some info) =>
    match selectFormats info media_type with
    | .error e => .error e
    | .ok (fmts, selected) =>
      if pyFalsy selected then
        .error (.valueError ("No suitable " ++ media_type ++ " format found"))
      else .ok (resultDict info media_type selected fmts)

/-- Structural prefix test on character lists (helper for `pyStartsWith`). -/
def charsPrefix : List Char → List Char → Bool
  | [], _ => true
  | _ :: _, [] => false
  | a :: as, b :: bs => a == b && charsPrefix as bs

/-- Python `s.startswith(pre)`. -/
def pyStartsWith (s pre : String) : Bool := charsPrefix pre.data s.data

/-- Python `s.lower()` (the program only ever lowercases ASCII keywords). -/
def pyLower (s : String) : String := ⟨s.data.map Char.toLower⟩

/-- An HTTP response: status code and JSON body (an ordered dict). -/
structure HttpResponse where
  status : Nat
  body : List (String × PyVal)

/-- The parsed JSON body of a download request, restricted to the two fields
the handler reads; `Option.none` models a missing key. -/
structure DownloadBody where
  url : Option String := Option.none
  type : Option String := Option.none

/-- A request to `POST /api/download`: the `X-API-Key` header (absent or
present) and the parsed JSON body (`Option.none` when `request.get_json()`
yields no data). -/
structure DownloadRequest where
  apiKey : Option String := Option.none
  body : Option DownloadBody := Option.none

/-- A request to `GET /api/info`: the `X-API-Key` header and the `url`
query parameter. -/
structure InfoRequest where
  apiKey : Option String := Option.none
  url : Option String := Option.none

/-- The fixed 401 body both handlers return. -/
def unauthorizedBody : List (String × PyVal) :=
  [("error", .str "Unauthorized. Invalid API Key.")]

/-- The `POST /api/download` handler (`you.py` lines 125-164), parameterised
by the configured API key and the extraction adapter. The second component
records the `(url, media_type)` the adapter was invoked with, or
`Option.none` when it was never called. -/
def download (api_key : String)
    (extract : String → String → Except PyErr (List (String × PyVal)))
    (req : DownloadRequest) :
    HttpResponse × Option (String × String) :=
  if req.apiKey ≠ some api_key then (⟨401, unauthorizedBody⟩, Option.none)
  else
    match req.body with
    | Option.none =>
      (⟨400, [("error", .str "Missing request body")]⟩, Option.none)
    | some data =>
      let media_type := pyLower (data.type.getD "audio")
      match data.url with
      | Option.none =>
        (⟨400, [("error", .str "Missing \x27url\x27 in request")]⟩, Option.none)
      | some u =>
        if u = "" then
          (⟨400, [("error", .str "Missing \x27url\x27 in request")]⟩, Option.none)
        else if media_type ≠ "audio" ∧ media_type ≠ "video" then
          (⟨400, [("error",
            .str "Invalid \x27type\x27. Use \x27audio\x27 or \x27video\x27.")]⟩,
           Option.none)
        else if ¬ (pyStartsWith u "http://" ∨ pyStartsWith u "https://") then
          (⟨400, [("error", .str "Invalid URL format")]⟩, Option.none)
        else
          match extract u media_type with
          | .ok r => (⟨200, r⟩, some (u, media_type))
          | .error (.valueError m) =>
            (⟨400, [("error", .str m)]⟩, some (u, media_type))
          | .error (.typeError m) =>
            (⟨500, [("error", .str "An unexpected error occurred"),
                    ("details", .str m)]⟩, some (u, media_type))
          | .error (.other m) =>
            (⟨500, [("error", .str "An unexpected error occurred"),
                    ("details", .str m)]⟩, some (u, media_type))

/-- Python `result.pop("stream_url", None)` followed by `jsonify`: the dict
without its (unique) `"stream_url"` entry. -/
def popKey (k : String) (d : List (String × PyVal)) : List (String × PyVal) :=
  d.eraseP (fun p => p.1 == k)

/-- The `GET /api/info` handler (`you.py` lines 166-185). Note that it has
no URL-scheme check, always extracts with the `"video"` kind, and maps
every exception, `ValueError` included, to a 500 whose error field is the
raw exception text. -/
def get_info (api_key : String)
    (extract : String → String → Except PyErr (List (String × PyVal)))
    (req : InfoRequest) :
    HttpResponse × Option (String × String) :=
  if req.apiKey ≠ some api_key then (⟨401, unauthorizedBody⟩, Option.none)
  else
    match req.url with
    | Option.none =>
      (⟨400, [("error", .str "Missing \x27url\x27 parameter")]⟩, Option.none)
    | some u =>
      if u = "" then
        (⟨400, [("error", .str "Missing \x27url\x27 parameter")]⟩, Option.none)
      else
        match extract u "video" with
        | .ok r => (⟨200, popKey "stream_url" r⟩, some (u, "video"))
        | .error e =>
          (⟨500, [("error", .str e.msg)]⟩, some (u, "video"))

/-- Modelled from the spec: the `flask_limiter` middleware is an external
dependency whose code is not in this repository; only its configuration is
(`you.py` lines 17-21, 126, 167: defaults `100 per day` and `10 per minute`,
`@limiter.limit("10 per minute")` on download, `"20 per minute"` on info,
keyed by client network address). The middleware is modelled as per-address
counters over the current fixed windows: a call whose counters have reached
a limit is rejected before the handler runs; otherwise the counters grow
and the handler's response is returned. -/
structure LimiterState where
  dlMinute : String → Nat
  infoMinute : String → Nat
  day : String → Nat

/-- The limiter state at the start of a window, all counters zero. -/
def LimiterState.init : LimiterState := ⟨fun _ => 0, fun _ => 0, fun _ => 0⟩

/-- The two rate-limited endpoints. -/
inductive Endpoint where
  | download : Endpoint
  | info : Endpoint

/-- Outcome of one served call: either the handler's response (the normal
JSON envelope path) or the middleware's rate-limit rejection, a distinct
429 outcome produced without running the handler. -/
inductive ServeOutcome where
  | handled : HttpResponse → Option (String × String) → ServeOutcome
  | rejected429 : ServeOutcome

/-- Modelled from the spec: serving one call through the rate limiter with
the thresholds configured in `you.py` (download 10/minute, info 20/minute,
global 100/day), keyed by client address. -/
def serveLimited (st : LimiterState) (addr : String) (ep : Endpoint)
    (handler : Unit → HttpResponse × Option (String × String)) :
    ServeOutcome × LimiterState :=
  match ep with
  | .download =>
    if 10 ≤ st.dlMinute addr ∨ 100 ≤ st.day addr then (.rejected429, st)
    else
      let r := handler ()
      (.handled r.1 r.2,
       { st with
          dlMinute := fun a => if a = addr then st.dlMinute a + 1 else st.dlMinute a,
          day := fun a => if a = addr then st.day a + 1 else st.day a })
  | .info =>
    if 20 ≤ st.infoMinute addr ∨ 100 ≤ st.day addr then (.rejected429, st)
    else
      let r := handler ()
      (.handled r.1 r.2,
       { st with
          infoMinute := fun a => if a = addr then st.infoMinute a + 1 else st.infoMinute a,
          day := fun a => if a = addr then st.day a + 1 else st.day a })

/-- Serve a list of download calls from one address, threading the limiter
state; used to talk about the n-th call within one window. -/
def serveDownloads (st : LimiterState) (addr : String) :
    List (Unit → HttpResponse × Option (String × String)) → LimiterState
  | [] => st
  | h :: hs => serveDownloads (serveLimited st addr .download h).2 addr hs

/-! ## Specification-side definitions

These render the spec's phrases (first maximum, the filter predicates) so
that the embedded code can be compared against them. -/

/-- First maximum of `best :: l` under `key`: scan left to right, replacing
the current best only on a strictly larger key. -/
def firstMaxBy {β γ : Type} [LinearOrder γ] (key : β → γ) :
    β → List β → β
  | best, [] => best
  | best, x :: xs => firstMaxBy key (if key best < key x then x else best) xs

/-- `b` is the element of `l` that maximises `key`, ties broken by first
occurrence: `b` occurs at some index `i`, no key exceeds `key b`, and every
element before index `i` has a strictly smaller key. -/
def IsFirstMaxBy {β γ : Type} [LinearOrder γ] (key : β → γ)
    (l : List β) (b : β) : Prop :=
  ∃ i, l.get? i = some b ∧ (∀ x ∈ l, key x ≤ key b) ∧
    ∀ j x, j < i → l.get? j = some x → key x < key b

theorem firstMaxBy_mem {β γ : Type} [LinearOrder γ] (key : β → γ)
    (a : β) (l : List β) : firstMaxBy key a l ∈ a :: l := by
  induction l generalizing a with
  | nil => simp [firstMaxBy]
  | cons x xs ih =>
    have h := ih (if key a < key x then x else a)
    by_cases hc : key a < key x
    · simp only [firstMaxBy, if_pos hc] at h ⊢
      rcases List.mem_cons.mp h with h | h
      · rw [h]
        exact List.mem_cons_of_mem _ (List.mem_cons_self _ _)
      · exact List.mem_cons_of_mem _ (List.mem_cons_of_mem _ h)
    · simp only [firstMaxBy, if_neg hc] at h ⊢
      rcases List.mem_cons.mp h with h | h
      · rw [h]
        exact List.mem_cons_self _ _
      · exact List.mem_cons_of_mem _ (List.mem_cons_of_mem _ h)

theorem firstMaxBy_le {β γ : Type} [LinearOrder γ] (key : β → γ)
    (a : β) (l : List β) :
    ∀ x ∈ a :: l, key x ≤ key (firstMaxBy key a l) := by
  induction l generalizing a with
  | nil =>
    intro x hx
    rcases List.mem_cons.mp hx with rfl | h
    · simp [firstMaxBy]
    · simp at h
  | cons y ys ih =>
    intro x hx
    have hstep : firstMaxBy key a (y :: ys) =
        firstMaxBy key (if key a < key y then y else a) ys := rfl
    rw [hstep]
    have hhead : key (if key a < key y then y else a) ≤
        key (firstMaxBy key (if key a < key y then y else a) ys) :=
      ih _ _ (List.mem_cons_self _ _)
    rcases List.mem_cons.mp hx with rfl | hx2
    · by_cases hc : key x < key y
      · rw [if_pos hc] at hhead ⊢
        exact le_trans (le_of_lt hc) hhead
      · rw [if_neg hc] at hhead ⊢
        exact hhead
    · rcases List.mem_cons.mp hx2 with rfl | hx3
      · by_cases hc : key a < key x
        · rw [if_pos hc] at hhead ⊢
          exact hhead
        · rw [if_neg hc] at hhead ⊢
          exact le_trans (le_of_not_lt hc) hhead
      · exact ih _ x (List.mem_cons_of_mem _ hx3)

theorem firstMaxBy_index {β γ : Type} [LinearOrder γ] (key : β → γ)
    (a : β) (l : List β) :
    ∃ i, (a :: l).get? i = some (firstMaxBy key a l) ∧
      ∀ j x, j < i → (a :: l).get? j = some x →
        key x < key (firstMaxBy key a l) := by
  induction l generalizing a with
  | nil =>
    refine ⟨0, by simp [firstMaxBy], ?_⟩
    intro j x hj
    omega
  | cons y ys ih =>
    by_cases hc : key a < key y
    · obtain ⟨i, hget, hstrict⟩ := ih y
      have hstep : firstMaxBy key a (y :: ys) = firstMaxBy key y ys := by
        simp [firstMaxBy, hc]
      refine ⟨i + 1, by simpa [hstep] using hget, ?_⟩
      intro j x hj hx
      rw [hstep]
      match j with
      | 0 =>
        have hxa : x = a := by simpa using hx.symm
        subst hxa
        exact lt_of_lt_of_le hc (firstMaxBy_le key y ys y (List.mem_cons_self _ _))
      | j' + 1 =>
        exact hstrict j' x (by omega) (by simpa using hx)
    · obtain ⟨i, hget, hstrict⟩ := ih a
      have hstep : firstMaxBy key a (y :: ys) = firstMaxBy key a ys := by
        simp [firstMaxBy, hc]
      match i, hget, hstrict with
      | 0, hget, hstrict =>
        have hba : firstMaxBy key a ys = a := by simpa using hget.symm
        refine ⟨0, by simp [hstep, hba], ?_⟩
        intro j x hj
        omega
      | i' + 1, hget, hstrict =>
        have hya : key a < key (firstMaxBy key a ys) :=
          hstrict 0 a (by omega) (by simp)
        refine ⟨i' + 2, by simpa [hstep] using hget, ?_⟩
        intro j x hj hx
        rw [hstep]
        match j with
        | 0 =>
          have hxa : x = a := by simpa using hx.symm
          subst hxa
          exact hya
        | 1 =>
          have hxy : x = y := by simpa using hx.symm
          subst hxy
          exact lt_of_le_of_lt (le_of_not_lt hc) hya
        | j' + 2 =>
          have hx2 : (a :: ys).get? (j' + 1) = some x := by simpa using hx
          exact hstrict (j' + 1) x (by omega) hx2

theorem firstMaxBy_isFirstMax {β γ : Type} [LinearOrder γ] (key : β → γ)
    (a : β) (l : List β) :
    IsFirstMaxBy key (a :: l) (firstMaxBy key a l) := by
  obtain ⟨i, h1, h3⟩ := firstMaxBy_index key a l
  exact ⟨i, h1, firstMaxBy_le key a l, h3⟩

theorem pyMaxRun_eq_firstMaxBy {β κ γ : Type} [LinearOrder γ]
    (gtc : κ → κ → Except PyErr Bool) (key : β → κ) (ikey : β → γ)
    (best : β) (l : List β)
    (h : ∀ x ∈ best :: l, ∀ y ∈ best :: l,
      gtc (key x) (key y) = .ok (decide (ikey y < ikey x))) :
    pyMaxRun gtc key best l = .ok (firstMaxBy ikey best l) := by
  induction l generalizing best with
  | nil => rfl
  | cons x xs ih =>
    have hx : gtc (key x) (key best) = .ok (decide (ikey best < ikey x)) :=
      h x (List.mem_cons_of_mem _ (List.mem_cons_self _ _)) best
        (List.mem_cons_self _ _)
    have hstep : pyMaxRun gtc key best (x :: xs) =
        pyMaxRun gtc key (if decide (ikey best < ikey x) then x else best) xs := by
      simp [pyMaxRun, hx]
    have hstep2 : firstMaxBy ikey best (x :: xs) =
        firstMaxBy ikey (if ikey best < ikey x then x else best) xs := rfl
    rw [hstep, hstep2]
    by_cases hc : ikey best < ikey x
    · simp only [decide_eq_true hc, if_pos hc, if_true]
      refine ih x ?_
      intro a ha b hb
      exact h a (List.mem_cons_of_mem _ ha) b (List.mem_cons_of_mem _ hb)
    · simp only [decide_eq_false hc, if_neg hc, if_false]
      refine ih best ?_
      intro a ha b hb
      have ha3 : a ∈ best :: x :: xs := by
        rcases List.mem_cons.mp ha with rfl | ha2
        · exact List.mem_cons_self _ _
        · exact List.mem_cons_of_mem _ (List.mem_cons_of_mem _ ha2)
      have hb3 : b ∈ best :: x :: xs := by
        rcases List.mem_cons.mp hb with rfl | hb2
        · exact List.mem_cons_self _ _
        · exact List.mem_cons_of_mem _ (List.mem_cons_of_mem _ hb2)
      exact h a ha3 b hb3

theorem pyGtVal_int (m n : Int) :
    pyGtVal (.int m) (.int n) = .ok (decide (n < m)) := rfl

theorem pyGtPair_int (a1 a2 b1 b2 : Int) :
    pyGtPair (.int a1, .int a2) (.int b1, .int b2) =
      .ok (decide (toLex (b1, b2) < toLex (a1, a2))) := by
  by_cases h1 : a1 = b1
  · subst h1
    by_cases h2 : a2 = b2
    · subst h2
      have e1 : decide (a1 = a1) = true := decide_eq_true rfl
      have e2 : decide (a2 = a2) = true := decide_eq_true rfl
      have e3 : decide (toLex (a1, a2) < toLex (a1, a2)) = false :=
        decide_eq_false (lt_irrefl _)
      simp [pyGtPair, pyEqVal, e3]
    · have e1 : decide (a1 = a1) = true := decide_eq_true rfl
      have e2 : decide (a2 = b2) = false := decide_eq_false h2
      have e3 : decide (toLex (a1, b2) < toLex (a1, a2)) = decide (b2 < a2) := by
        apply decide_eq_decide.mpr
        rw [Prod.Lex.lt_iff]
        constructor
        · rintro (h | ⟨-, h⟩)
          · exact absurd h (lt_irrefl a1)
          · exact h
        · intro h
          exact Or.inr ⟨rfl, h⟩
      simp [pyGtPair, pyEqVal, pyGtVal, e2, e3]
  · have e1 : decide (a1 = b1) = false := decide_eq_false h1
    have e3 : decide (toLex (b1, b2) < toLex (a1, a2)) = decide (b1 < a1) := by
      apply decide_eq_decide.mpr
      rw [Prod.Lex.lt_iff]
      constructor
      · rintro (h | ⟨h, -⟩)
        · exact h
        · exact absurd h.symm h1
      · intro h
        exact Or.inl h
    simp [pyGtPair, pyEqVal, pyGtVal, e1, e3]

theorem buildAudioList_eq_filter_map (l : List RawFormat) :
    buildAudioList l =
      (l.filter fun f =>
        decide (f.acodec ≠ some "none" ∧ f.vcodec = some "none")).map mkAudioFmt := by
  induction l with
  | nil => rfl
  | cons f fs ih =>
    by_cases hc : f.acodec ≠ some "none" ∧ f.vcodec = some "none"
    · simp [buildAudioList, List.filter_cons, hc, ih]
    · simp [buildAudioList, List.filter_cons, hc, ih]

theorem buildVideoList_eq_filter_map (l : List RawFormat) :
    buildVideoList l =
      (l.filter fun f =>
        decide (f.vcodec ≠ some "none" ∧ f.acodec ≠ some "none")).map mkVideoFmt := by
  induction l with
  | nil => rfl
  | cons f fs ih =>
    by_cases hc : f.vcodec ≠ some "none" ∧ f.acodec ≠ some "none"
    · simp [buildVideoList, List.filter_cons, hc, ih]
    · simp [buildVideoList, List.filter_cons, hc, ih]

theorem audioKey_mkAudioFmt (f : RawFormat) :
    audioKey (mkAudioFmt f) = optInt f.asr := rfl

theorem videoKey_mkVideoFmt (f : RawFormat) :
    videoKey (mkVideoFmt f) = (optInt f.height, optInt f.fps) := rfl

theorem urlOf_mkAudioFmt (f : RawFormat) :
    pyGet (mkAudioFmt f) "url" .none = optStr f.url := rfl

theorem urlOf_mkVideoFmt (f : RawFormat) :
    pyGet (mkVideoFmt f) "url" .none = optStr f.url := rfl

theorem firstMaxBy_map {β β2 γ : Type} [LinearOrder γ] (g : β → β2)
    (key : β2 → γ) (a : β) (l : List β) :
    firstMaxBy key (g a) (l.map g) = g (firstMaxBy (fun b => key (g b)) a l) := by
  induction l generalizing a with
  | nil => rfl
  | cons x xs ih =>
    show firstMaxBy key (if key (g a) < key (g x) then g x else g a) (xs.map g) = _
    by_cases hc : key (g a) < key (g x)
    · have hstep : firstMaxBy (fun b => key (g b)) a (x :: xs) =
          firstMaxBy (fun b => key (g b)) x xs := by
        simp [firstMaxBy, hc]
      rw [if_pos hc, ih x, hstep]
    · have hstep : firstMaxBy (fun b => key (g b)) a (x :: xs) =
          firstMaxBy (fun b => key (g b)) a xs := by
        simp [firstMaxBy, hc]
      rw [if_neg hc, ih a, hstep]

theorem pyMaxRun_error_of_none {β : Type} (key : β → PyVal)
    (best : β) (l : List β)
    (hshape : ∀ x ∈ best :: l, key x = .none ∨ ∃ n, key x = .int n)
    (hnone : ∃ x ∈ best :: l, key x = .none)
    (hne : l ≠ []) :
    pyMaxRun pyGtVal key best l =
      .error (.typeError "unsupported operand types for comparison") := by
  induction l generalizing best with
  | nil => exact absurd rfl hne
  | cons x xs ih =>
    rcases hshape best (List.mem_cons_self _ _) with hb | ⟨nb, hb⟩
    · have hcmp : pyGtVal (key x) (key best) =
          .error (.typeError "unsupported operand types for comparison") := by
        rcases hshape x (List.mem_cons_of_mem _ (List.mem_cons_self _ _)) with
          hx | ⟨nx, hx⟩
        · rw [hx, hb]
          rfl
        · rw [hx, hb]
          rfl
      simp [pyMaxRun, hcmp]
    · rcases hshape x (List.mem_cons_of_mem _ (List.mem_cons_self _ _)) with
        hx | ⟨nx, hx⟩
      · have hcmp : pyGtVal (key x) (key best) =
            .error (.typeError "unsupported operand types for comparison") := by
          rw [hx, hb]
          rfl
        simp [pyMaxRun, hcmp]
      · have hcmp : pyGtVal (key x) (key best) = .ok (decide (nb < nx)) := by
          rw [hx, hb]
          rfl
        have hxs : ∃ z ∈ xs, key z = .none := by
          rcases hnone with ⟨z, hz, hzn⟩
          rcases List.mem_cons.mp hz with rfl | hz2
          · rw [hb] at hzn
            cases hzn
          · rcases List.mem_cons.mp hz2 with rfl | hz3
            · rw [hx] at hzn
              cases hzn
            · exact ⟨z, hz3, hzn⟩
        have hxsne : xs ≠ [] := by
          rcases hxs with ⟨z, hz, _⟩
          intro hemp
          rw [hemp] at hz
          simp at hz
        have hres : pyMaxRun pyGtVal key best (x :: xs) =
            pyMaxRun pyGtVal key (if decide (nb < nx) then x else best) xs := by
          simp [pyMaxRun, hcmp]
        rw [hres]
        apply ih
        · intro z hz
          rcases List.mem_cons.mp hz with rfl | hz2
          · right
            by_cases hd : nb < nx
            · exact ⟨nx, by simp [hd, hx]⟩
            · exact ⟨nb, by simp [hd, hb]⟩
          · exact hshape z (List.mem_cons_of_mem _ (List.mem_cons_of_mem _ hz2))
        · rcases hxs with ⟨z, hz, hzn⟩
          exact ⟨z, List.mem_cons_of_mem _ hz, hzn⟩
        · exact hxsne

theorem extract_info_ok_shape (ydl : String → Except PyErr (Option RawInfo))
    (u mt : String) (r : List (String × PyVal))
    (h : extract_info ydl u mt = .ok r) :
    ∃ info sel fmts, r = resultDict info mt sel fmts := by
  cases hy : ydl u with
  | error e =>
    simp only [extract_info, hy] at h
    exact Except.noConfusion h
  | ok oinfo =>
    cases oinfo with
    | none =>
      simp only [extract_info, hy] at h
      exact Except.noConfusion h
    | some info =>
      simp only [extract_info, hy] at h
      cases hs : selectFormats info mt with
      | error e =>
        simp only [hs] at h
        exact Except.noConfusion h
      | ok p =>
        obtain ⟨fmts, sel⟩ := p
        simp only [hs] at h
        by_cases hf : pyFalsy sel
        · simp only [hf, if_true] at h
          exact Except.noConfusion h
        · simp only [hf, Bool.false_eq_true, if_false] at h
          exact ⟨info, sel, fmts, (Except.ok.inj h).symm⟩

/-! ## Concrete fixtures

Small inputs used by the witnesses and counterexamples. -/

/-- An audio-only format with sample rate 44100. -/
def audioFmt1 : RawFormat :=
  { format_id := some "139", ext := some "m4a", filesize := some 1000,
    asr := some 44100, url := some "u44100", acodec := some "mp4a.40.2",
    vcodec := some "none" }

/-- An audio-only format with sample rate 48000. -/
def audioFmt2 : RawFormat :=
  { format_id := some "140", ext := some "m4a", filesize := some 2000,
    asr := some 48000, url := some "u48000", acodec := some "mp4a.40.2",
    vcodec := some "none" }

/-- An audio-only format whose sample rate is `None`. -/
def audioFmtNull : RawFormat :=
  { format_id := some "599", ext := some "m4a", asr := Option.none,
    url := some "uNull", acodec := some "mp4a.40.5", vcodec := some "none" }

/-- A muxed 720p format at 30 fps. -/
def videoFmt720 : RawFormat :=
  { format_id := some "18", ext := some "mp4", width := some 1280,
    height := some 720, fps := some 30, url := some "u720",
    acodec := some "mp4a.40.2", vcodec := some "avc1" }

/-- A muxed 1080p format at 24 fps. -/
def videoFmt1080 : RawFormat :=
  { format_id := some "37", ext := some "mp4", width := some 1920,
    height := some 1080, fps := some 24, url := some "u1080",
    acodec := some "mp4a.40.2", vcodec := some "avc1" }

/-- A muxed 720p format whose `fps` is `None`. -/
def videoFmtNoFps : RawFormat :=
  { format_id := some "22", ext := some "mp4", height := some 720,
    fps := Option.none, url := some "u720n",
    acodec := some "mp4a.40.2", vcodec := some "avc1" }

/-- Info dict with the two audio formats of the spec's audio test. -/
def audioInfo : RawInfo := { title := .str "t", formats := [audioFmt1, audioFmt2] }

/-- Info dict with the two video formats of the spec's video test. -/
def videoInfo : RawInfo := { title := .str "t", formats := [videoFmt720, videoFmt1080] }

/-- A mocked yt-dlp call returning the audio fixture. -/
def ydlAudio : String → Except PyErr (Option RawInfo) := fun _ => .ok (some audioInfo)

/-- A mocked yt-dlp call returning the video fixture. -/
def ydlVideo : String → Except PyErr (Option RawInfo) := fun _ => .ok (some videoInfo)

/-- A mocked yt-dlp call raising an unanticipated exception. -/
def ydlBoom : String → Except PyErr (Option RawInfo) := fun _ => .error (.other "boom")

/-- A mocked yt-dlp call returning `None` (extraction yielded nothing). -/
def ydlNone : String → Except PyErr (Option RawInfo) := fun _ => .ok Option.none

/-- Info dict with no formats at all (empty filtered candidate set). -/
def emptyInfo : RawInfo := { title := .str "t" }

/-- A mocked yt-dlp call returning an info dict with no formats. -/
def ydlEmpty : String → Except PyErr (Option RawInfo) := fun _ => .ok (some emptyInfo)

/-- Video fixture where one candidate has a `None` fps but heights differ. -/
def videoInfoNull : RawInfo := { formats := [videoFmtNoFps, videoFmt1080] }

/-- A mocked yt-dlp call returning `videoInfoNull`. -/
def ydlVideoNull : String → Except PyErr (Option RawInfo) :=
  fun _ => .ok (some videoInfoNull)

/-- Audio fixture where one candidate has a `None` sample rate. -/
def audioInfoNull : RawInfo := { formats := [audioFmtNull, audioFmt2] }

/-- A mocked yt-dlp call returning `audioInfoNull`. -/
def ydlAudioNull : String → Except PyErr (Option RawInfo) :=
  fun _ => .ok (some audioInfoNull)

/-- Numeric reading of a scalar `PyVal` (0 for `None`), used only to state
which integer a key holds once it is known to be an `int`. -/
def pyValToInt : PyVal → Int
  | .int n => n
  | _ => 0

theorem pyValToInt_optInt (a : Option Int) : pyValToInt (optInt a) = a.getD 0 := by
  cases a <;> rfl

/-- The keys of a successful info response: the result dict keys with
`stream_url` removed, independently of the metadata values. -/
theorem popKey_resultDict_keys (info : RawInfo) (mt : String) (sel : PyVal)
    (fmts : List (List (String × PyVal))) :
    (popKey "stream_url" (resultDict info mt sel fmts)).map Prod.fst =
      ["title", "id", "duration", "duration_string", "uploader", "channel_url",
       "thumbnail", "description", "tags", "categories", "view_count",
       "like_count", "webpage_url", "upload_date", "media_type",
       "available_formats"] := rfl

/-! ## Claims -/

/-- Claim C4: for every request to POST /api/download or GET /api/info with a
missing or mismatched X-API-Key header, the response is 401 with the fixed
error body, regardless of whether the rest of the request is valid, and the
extraction adapter is not invoked. -/
theorem unauthorized_fixed_401 (api_key : String)
    (extract : String → String → Except PyErr (List (String × PyVal)))
    (dreq : DownloadRequest) (ireq : InfoRequest)
    (hd : dreq.apiKey ≠ some api_key) (hi : ireq.apiKey ≠ some api_key) :
    download api_key extract dreq = (⟨401, unauthorizedBody⟩, Option.none) ∧
    get_info api_key extract ireq = (⟨401, unauthorizedBody⟩, Option.none) :=
  ⟨by simp [download, hd], by simp [get_info, hi]⟩

theorem unauthorized_fixed_401_witness :
    download "secret" (extract_info ydlNone)
        { apiKey := Option.none, body := some { url := some "http://x" } } =
      (⟨401, unauthorizedBody⟩, Option.none) ∧
    get_info "secret" (extract_info ydlNone)
        { apiKey := some "wrong", url := some "http://x" } =
      (⟨401, unauthorizedBody⟩, Option.none) :=
  unauthorized_fixed_401 "secret" (extract_info ydlNone) _ _
    (by decide) (by decide)

/-- Claim C5: every GET /api/info request extracts with the "video" media
kind, and a successful response body never contains a `stream_url` key. -/
theorem info_video_kind_no_stream_url (api_key : String)
    (ydl : String → Except PyErr (Option RawInfo)) (req : InfoRequest) :
    (∀ p, (get_info api_key (extract_info ydl) req).2 = some p →
      p.2 = "video") ∧
    ((get_info api_key (extract_info ydl) req).1.status = 200 →
      "stream_url" ∉
        (get_info api_key (extract_info ydl) req).1.body.map Prod.fst) := by
  by_cases hk : req.apiKey = some api_key
  · cases hu : req.url with
    | none =>
      constructor
      · intro p hp
        simp [get_info, hk, hu] at hp
      · intro hst
        simp [get_info, hk, hu] at hst
    | some u =>
      by_cases hue : u = ""
      · constructor
        · intro p hp
          simp [get_info, hk, hu, hue] at hp
        · intro hst
          simp [get_info, hk, hu, hue] at hst
      · cases hext : extract_info ydl u "video" with
        | error e =>
          constructor
          · intro p hp
            simp [get_info, hk, hu, hue, hext] at hp
            rw [← hp]
          · intro hst
            simp [get_info, hk, hu, hue, hext] at hst
        | ok r =>
          obtain ⟨info, sel, fmts, rfl⟩ := extract_info_ok_shape ydl u "video" r hext
          constructor
          · intro p hp
            simp [get_info, hk, hu, hue, hext] at hp
            rw [← hp]
          · intro _
            have hbody : (get_info api_key (extract_info ydl) req).1.body =
                popKey "stream_url" (resultDict info "video" sel fmts) := by
              simp [get_info, hk, hu, hue, hext]
            rw [hbody, popKey_resultDict_keys]
            decide
  · constructor
    · intro p hp
      simp [get_info, hk] at hp
    · intro hst
      simp [get_info, hk] at hst

theorem info_video_kind_no_stream_url_witness :
    (get_info "k" (extract_info ydlVideo)
        { apiKey := some "k", url := some "http://x" }).2 =
      some ("http://x", "video") ∧
    "stream_url" ∉ (get_info "k" (extract_info ydlVideo)
        { apiKey := some "k", url := some "http://x" }).1.body.map Prod.fst :=
  ⟨rfl, (info_video_kind_no_stream_url "k" ydlVideo
    { apiKey := some "k", url := some "http://x" }).2 rfl⟩

/-- A download request that passes authentication and all validation steps
reaches the extraction call, and the response is determined by its outcome. -/
theorem download_valid_reaches_extract (api_key u mt : String)
    (extract : String → String → Except PyErr (List (String × PyVal)))
    (req : DownloadRequest) (data : DownloadBody)
    (hk : req.apiKey = some api_key) (hb : req.body = some data)
    (hu : data.url = some u) (hne : u ≠ "")
    (hmt : pyLower (data.type.getD "audio") = mt)
    (hval : mt = "audio" ∨ mt = "video")
    (hscheme : pyStartsWith u "http://" ∨ pyStartsWith u "https://") :
    download api_key extract req =
      (match extract u mt with
       | .ok r => (⟨200, r⟩, some (u, mt))
       | .error (.valueError m) => (⟨400, [("error", .str m)]⟩, some (u, mt))
       | .error (.typeError m) =>
         (⟨500, [("error", .str "An unexpected error occurred"),
                 ("details", .str m)]⟩, some (u, mt))
       | .error (.other m) =>
         (⟨500, [("error", .str "An unexpected error occurred"),
                 ("details", .str m)]⟩, some (u, mt))) := by
  have hcond : ¬ (mt ≠ "audio" ∧ mt ≠ "video") := by
    rcases hval with h | h <;> simp [h]
  simp [download, hk, hb, hu, hne, hmt, hcond, hscheme]

/-- Claim C8: a POST /api/download body without a type field defaults to
audio; a provided type is matched case-insensitively; a type whose lowercase
form is neither audio nor video yields 400. -/
theorem download_type_validation (api_key u : String)
    (extract : String → String → Except PyErr (List (String × PyVal)))
    (req : DownloadRequest) (data : DownloadBody)
    (hk : req.apiKey = some api_key) (hb : req.body = some data)
    (hu : data.url = some u) (hne : u ≠ "")
    (hscheme : pyStartsWith u "http://" ∨ pyStartsWith u "https://") :
    (data.type = Option.none →
      (download api_key extract req).2 = some (u, "audio")) ∧
    (∀ t, data.type = some t → (pyLower t = "audio" ∨ pyLower t = "video") →
      (download api_key extract req).2 = some (u, pyLower t)) ∧
    (∀ t, data.type = some t → pyLower t ≠ "audio" → pyLower t ≠ "video" →
      download api_key extract req =
        (⟨400, [("error",
          .str "Invalid \x27type\x27. Use \x27audio\x27 or \x27video\x27.")]⟩,
         Option.none)) := by
  refine ⟨?_, ?_, ?_⟩
  · intro ht
    have hmt : pyLower (data.type.getD "audio") = "audio" := by
      rw [ht]
      rfl
    rw [download_valid_reaches_extract api_key u "audio" extract req data
      hk hb hu hne hmt (Or.inl rfl) hscheme]
    cases hext : extract u "audio" with
    | ok r => rfl
    | error e => cases e <;> rfl
  · intro t ht hval
    have hmt : pyLower (data.type.getD "audio") = pyLower t := by
      rw [ht]
      rfl
    rw [download_valid_reaches_extract api_key u (pyLower t) extract req data
      hk hb hu hne hmt hval hscheme]
    cases hext : extract u (pyLower t) with
    | ok r => rfl
    | error e => cases e <;> rfl
  · intro t ht h1 h2
    have hcond : pyLower (data.type.getD "audio") ≠ "audio" ∧
        pyLower (data.type.getD "audio") ≠ "video" := by
      rw [ht]
      exact ⟨h1, h2⟩
    simp [download, hk, hb, hu, hne, hcond]

theorem download_type_validation_witness :
    (download "k" (extract_info ydlAudio)
      { apiKey := some "k",
        body := some { url := some "http://x", type := some "Audio" } }).2 =
      some ("http://x", "audio") ∧
    (download "k" (extract_info ydlVideo)
      { apiKey := some "k",
        body := some { url := some "http://x", type := some "VIDEO" } }).2 =
      some ("http://x", "video") ∧
    download "k" (extract_info ydlAudio)
      { apiKey := some "k",
        body := some { url := some "http://x", type := some "mp3" } } =
      (⟨400, [("error",
        .str "Invalid \x27type\x27. Use \x27audio\x27 or \x27video\x27.")]⟩,
       Option.none) :=
  ⟨(download_type_validation "k" "http://x" (extract_info ydlAudio) _ _
      rfl rfl rfl (by decide) (Or.inl rfl)).2.1 "Audio" rfl (Or.inl rfl),
   (download_type_validation "k" "http://x" (extract_info ydlVideo) _ _
      rfl rfl rfl (by decide) (Or.inl rfl)).2.1 "VIDEO" rfl (Or.inr rfl),
   (download_type_validation "k" "http://x" (extract_info ydlAudio) _ _
      rfl rfl rfl (by decide) (Or.inl rfl)).2.2 "mp3" rfl (by decide) (by decide)⟩

/-- Claim C3 (amended): a POST /api/download request that passes the API-key
check and carries a url not starting with http:// or https:// gets a 400 and
never invokes the extraction adapter; GET /api/info, however, performs no
URL-scheme validation, so an authorized info request with a non-empty
scheme-less url does invoke the adapter. -/
theorem url_scheme_gate (api_key u : String)
    (extract : String → String → Except PyErr (List (String × PyVal)))
    (dreq : DownloadRequest) (data : DownloadBody) (ireq : InfoRequest)
    (hk : dreq.apiKey = some api_key) (hb : dreq.body = some data)
    (hu : data.url = some u)
    (hbad : pyStartsWith u "http://" = false ∧ pyStartsWith u "https://" = false)
    (hik : ireq.apiKey = some api_key) (hiu : ireq.url = some u) (hine : u ≠ "") :
    ((download api_key extract dreq).1.status = 400 ∧
      (download api_key extract dreq).2 = Option.none) ∧
    (get_info api_key extract ireq).2 = some (u, "video") := by
  constructor
  · by_cases hne : u = ""
    · constructor <;> simp [download, hk, hb, hu, hne]
    · by_cases hty : pyLower (data.type.getD "audio") ≠ "audio" ∧
          pyLower (data.type.getD "audio") ≠ "video"
      · constructor <;> simp [download, hk, hb, hu, hne, hty]
      · have hsch : ¬ (pyStartsWith u "http://" ∨ pyStartsWith u "https://") := by
          simp [hbad.1, hbad.2]
        constructor <;> simp [download, hk, hb, hu, hne, hty, hsch]
  · cases hext : extract u "video" with
    | ok r => simp [get_info, hik, hiu, hine, hext]
    | error e => simp [get_info, hik, hiu, hine, hext]

theorem url_scheme_gate_witness :
    ((download "k" (extract_info ydlBoom)
        { apiKey := some "k", body := some { url := some "notaurl" } }).1.status
        = 400 ∧
      (download "k" (extract_info ydlBoom)
        { apiKey := some "k", body := some { url := some "notaurl" } }).2 =
        Option.none) ∧
    (get_info "k" (extract_info ydlBoom)
        { apiKey := some "k", url := some "notaurl" }).2 =
      some ("notaurl", "video") :=
  url_scheme_gate "k" "notaurl" (extract_info ydlBoom) _ _ _
    rfl rfl rfl ⟨rfl, rfl⟩ rfl rfl (by decide)

/-- Claim C3 counterexample: an authorized GET /api/info request whose url
starts with neither http:// nor https:// still invokes the extraction
adapter (with the "video" kind) and receives a 500, not a 400. -/
theorem url_scheme_gate_cex :
    pyStartsWith "notaurl" "http://" = false ∧
    pyStartsWith "notaurl" "https://" = false ∧
    (get_info "k" (extract_info ydlBoom)
        { apiKey := some "k", url := some "notaurl" }).2 =
      some ("notaurl", "video") ∧
    (get_info "k" (extract_info ydlBoom)
        { apiKey := some "k", url := some "notaurl" }).1.status = 500 :=
  ⟨rfl, rfl, rfl, rfl⟩

/-- Claim C6: for an authenticated, validated POST /api/download request, an
empty filtered candidate set makes extraction fail with the NoSuitableFormat
message and the response is a 400 carrying it; a 200 response always carries
a `stream_url` entry. -/
theorem download_no_suitable_format (api_key u mt : String)
    (ydl : String → Except PyErr (Option RawInfo))
    (req : DownloadRequest) (data : DownloadBody) (info : RawInfo)
    (hk : req.apiKey = some api_key) (hb : req.body = some data)
    (hu : data.url = some u) (hne : u ≠ "")
    (hmt : pyLower (data.type.getD "audio") = mt)
    (hval : mt = "audio" ∨ mt = "video")
    (hscheme : pyStartsWith u "http://" ∨ pyStartsWith u "https://")
    (hy : ydl u = .ok (some info)) :
    ((mt = "audio" → buildAudioList info.formats = [] →
        download api_key (extract_info ydl) req =
          (⟨400, [("error",
            .str ("No suitable " ++ mt ++ " format found"))]⟩,
           some (u, mt))) ∧
      (mt = "video" → buildVideoList info.formats = [] →
        download api_key (extract_info ydl) req =
          (⟨400, [("error",
            .str ("No suitable " ++ mt ++ " format found"))]⟩,
           some (u, mt)))) ∧
    ((download api_key (extract_info ydl) req).1.status = 200 →
      ∃ v, ("stream_url", v) ∈ (download api_key (extract_info ydl) req).1.body) := by
  have hdl := download_valid_reaches_extract api_key u mt (extract_info ydl)
    req data hk hb hu hne hmt hval hscheme
  constructor
  · constructor
    · intro hmta hempty
      subst hmta
      have hext : extract_info ydl u "audio" =
          .error (.valueError ("No suitable " ++ "audio" ++ " format found")) := by
        simp [extract_info, hy, selectFormats, hempty, pyFalsy]
      rw [hdl, hext]
    · intro hmtv hempty
      subst hmtv
      have hext : extract_info ydl u "video" =
          .error (.valueError ("No suitable " ++ "video" ++ " format found")) := by
        simp [extract_info, hy, selectFormats, hempty, pyFalsy]
      rw [hdl, hext]
  · intro hst
    cases hext : extract_info ydl u mt with
    | error e =>
      rw [hdl, hext] at hst
      cases e <;> simp at hst
    | ok r =>
      obtain ⟨info2, sel, fmts, rfl⟩ := extract_info_ok_shape ydl u mt r hext
      rw [hdl, hext] at hst ⊢
      exact ⟨sel, by simp [resultDict]⟩

theorem download_no_suitable_format_witness :
    download "k" (extract_info ydlEmpty)
        { apiKey := some "k", body := some { url := some "http://x" } } =
      (⟨400, [("error",
        .str ("No suitable " ++ "audio" ++ " format found"))]⟩,
       some ("http://x", "audio")) ∧
    ∃ v, ("stream_url", v) ∈ (download "k" (extract_info ydlAudio)
        { apiKey := some "k", body := some { url := some "http://x" } }).1.body :=
  ⟨(download_no_suitable_format "k" "http://x" "audio" ydlEmpty
      { apiKey := some "k", body := some { url := some "http://x" } }
      { url := some "http://x" } emptyInfo
      rfl rfl rfl (by decide) rfl (Or.inl rfl) (Or.inl rfl) rfl).1.1 rfl rfl,
   (download_no_suitable_format "k" "http://x" "audio" ydlAudio
      { apiKey := some "k", body := some { url := some "http://x" } }
      { url := some "http://x" } audioInfo
      rfl rfl rfl (by decide) rfl (Or.inl rfl) (Or.inl rfl) rfl).2 rfl⟩

/-- Claim C7 (amended): both handlers catch every error and answer with the
JSON error envelope (a body carrying an `error` message); for POST
/api/download an unanticipated (non-ValueError) extraction failure gives a
500 with the generic message and the raw exception text as `details`; but
GET /api/info answers 500 whose `error` field is the raw exception text
itself, for every extraction failure. -/
theorem error_envelope_spec (api_key u mt : String)
    (extract : String → String → Except PyErr (List (String × PyVal)))
    (dreq : DownloadRequest) (ireq : InfoRequest) (data : DownloadBody)
    (hk : dreq.apiKey = some api_key) (hb : dreq.body = some data)
    (hu : data.url = some u) (hne : u ≠ "")
    (hmt : pyLower (data.type.getD "audio") = mt)
    (hval : mt = "audio" ∨ mt = "video")
    (hscheme : pyStartsWith u "http://" ∨ pyStartsWith u "https://")
    (hik : ireq.apiKey = some api_key) (hiu : ireq.url = some u) :
    (∀ req2 : DownloadRequest, (download api_key extract req2).1.status ≠ 200 →
      ∃ m, pyGet (download api_key extract req2).1.body "error" .none = .str m) ∧
    (∀ req2 : InfoRequest, (get_info api_key extract req2).1.status ≠ 200 →
      ∃ m, pyGet (get_info api_key extract req2).1.body "error" .none = .str m) ∧
    (∀ m, extract u mt = .error (.typeError m) ∨ extract u mt = .error (.other m) →
      download api_key extract dreq =
        (⟨500, [("error", .str "An unexpected error occurred"),
                ("details", .str m)]⟩, some (u, mt))) ∧
    (∀ e, extract u "video" = .error e →
      get_info api_key extract ireq =
        (⟨500, [("error", .str e.msg)]⟩, some (u, "video"))) := by
  refine ⟨?_, ?_, ?_, ?_⟩
  · intro req2 hst
    by_cases hk2 : req2.apiKey = some api_key
    · cases hb2 : req2.body with
      | none => exact ⟨"Missing request body", by simp [download, hk2, hb2, pyGet]⟩
      | some data2 =>
        cases hu2 : data2.url with
        | none =>
          exact ⟨"Missing \x27url\x27 in request",
            by simp [download, hk2, hb2, hu2, pyGet]⟩
        | some u2 =>
          by_cases hne2 : u2 = ""
          · exact ⟨"Missing \x27url\x27 in request",
              by simp [download, hk2, hb2, hu2, hne2, pyGet]⟩
          · by_cases hty2 : pyLower (data2.type.getD "audio") ≠ "audio" ∧
                pyLower (data2.type.getD "audio") ≠ "video"
            · exact ⟨"Invalid \x27type\x27. Use \x27audio\x27 or \x27video\x27.",
                by simp [download, hk2, hb2, hu2, hne2, hty2, pyGet]⟩
            · by_cases hsch2 : pyStartsWith u2 "http://" ∨ pyStartsWith u2 "https://"
              · cases hext : extract u2 (pyLower (data2.type.getD "audio")) with
                | ok r =>
                  exact absurd
                    (by simp [download, hk2, hb2, hu2, hne2, hty2, hsch2, hext]) hst
                | error e =>
                  cases e with
                  | valueError m =>
                    exact ⟨m, by
                      simp [download, hk2, hb2, hu2, hne2, hty2, hsch2, hext, pyGet]⟩
                  | typeError m =>
                    exact ⟨"An unexpected error occurred", by
                      simp [download, hk2, hb2, hu2, hne2, hty2, hsch2, hext, pyGet]⟩
                  | other m =>
                    exact ⟨"An unexpected error occurred", by
                      simp [download, hk2, hb2, hu2, hne2, hty2, hsch2, hext, pyGet]⟩
              · exact ⟨"Invalid URL format",
                  by simp [download, hk2, hb2, hu2, hne2, hty2, hsch2, pyGet]⟩
    · exact ⟨"Unauthorized. Invalid API Key.",
        by simp [download, hk2, unauthorizedBody, pyGet]⟩
  · intro req2 hst
    by_cases hk2 : req2.apiKey = some api_key
    · cases hu2 : req2.url with
      | none =>
        exact ⟨"Missing \x27url\x27 parameter", by simp [get_info, hk2, hu2, pyGet]⟩
      | some u2 =>
        by_cases hne2 : u2 = ""
        · exact ⟨"Missing \x27url\x27 parameter",
            by simp [get_info, hk2, hu2, hne2, pyGet]⟩
        · cases hext : extract u2 "video" with
          | ok r =>
            exact absurd (by simp [get_info, hk2, hu2, hne2, hext]) hst
          | error e =>
            exact ⟨e.msg, by simp [get_info, hk2, hu2, hne2, hext, pyGet]⟩
    · exact ⟨"Unauthorized. Invalid API Key.",
        by simp [get_info, hk2, unauthorizedBody, pyGet]⟩
  · intro m hext
    rw [download_valid_reaches_extract api_key u mt extract dreq data
      hk hb hu hne hmt hval hscheme]
    rcases hext with h | h <;> rw [h]
  · intro e hext
    have hine : u ≠ "" := by
      intro h
      subst h
      rcases hscheme with hs | hs <;> exact Bool.noConfusion hs
    simp [get_info, hik, hiu, hine, hext]

theorem error_envelope_spec_witness :
    (∃ m, pyGet (download "k" (extract_info ydlNone)
        { apiKey := Option.none }).1.body "error" .none = .str m) ∧
    download "k" (extract_info ydlBoom)
        { apiKey := some "k", body := some { url := some "http://x" } } =
      (⟨500, [("error", .str "An unexpected error occurred"),
              ("details", .str "boom")]⟩, some ("http://x", "audio")) ∧
    get_info "k" (extract_info ydlBoom)
        { apiKey := some "k", url := some "http://x" } =
      (⟨500, [("error", .str "boom")]⟩, some ("http://x", "video")) :=
  ⟨(error_envelope_spec "k" "http://x" "audio" (extract_info ydlBoom)
      { apiKey := some "k", body := some { url := some "http://x" } }
      { apiKey := some "k", url := some "http://x" } _
      rfl rfl rfl (by decide) rfl (Or.inl rfl) (Or.inl rfl) rfl rfl).1
      { apiKey := Option.none } (by decide),
   (error_envelope_spec "k" "http://x" "audio" (extract_info ydlBoom)
      { apiKey := some "k", body := some { url := some "http://x" } }
      { apiKey := some "k", url := some "http://x" } _
      rfl rfl rfl (by decide) rfl (Or.inl rfl) (Or.inl rfl) rfl rfl).2.2.1
      "boom" (Or.inr rfl),
   (error_envelope_spec "k" "http://x" "audio" (extract_info ydlBoom)
      { apiKey := some "k", body := some { url := some "http://x" } }
      { apiKey := some "k", url := some "http://x" } _
      rfl rfl rfl (by decide) rfl (Or.inl rfl) (Or.inl rfl) rfl rfl).2.2.2
      (.other "boom") rfl⟩

/-- Claim C7 counterexample: an authorized GET /api/info request whose
extraction raises an unanticipated exception with text "boom" receives a 500
whose error message is exactly the raw exception text — not a generic
message — and the body has no `details` entry. -/
theorem error_envelope_spec_cex :
    get_info "k" (extract_info ydlBoom)
        { apiKey := some "k", url := some "http://x" } =
      (⟨500, [("error", .str "boom")]⟩, some ("http://x", "video")) ∧
    pyGet [("error", PyVal.str "boom")] "error" .none ≠
      .str "An unexpected error occurred" ∧
    pyGet [("error", PyVal.str "boom")] "details" .none = .none :=
  ⟨rfl, fun h => absurd (PyVal.str.inj h) (by decide), rfl⟩

/-- Claim C1: for every audio request, the kept candidates are exactly the
raw formats with an audio track and no video track (the spec's "non-null
audio codec and null video codec", where "null codec" is yt-dlp's "none"
sentinel), in their original order; and from a non-empty candidate list
whose sample rates and urls are present, the entry maximising the sample
rate is selected — ties broken by first occurrence — and its url becomes the
`stream_url` of the result. -/
theorem audio_selector_spec (ydl : String → Except PyErr (Option RawInfo))
    (u : String) (info : RawInfo)
    (hy : ydl u = .ok (some info))
    (hne : (info.formats.filter fun f =>
      decide (f.acodec ≠ some "none" ∧ f.vcodec = some "none")) ≠ [])
    (hint : ∀ f ∈ (info.formats.filter fun f =>
        decide (f.acodec ≠ some "none" ∧ f.vcodec = some "none")),
      f.asr ≠ Option.none)
    (hurl : ∀ f ∈ (info.formats.filter fun f =>
        decide (f.acodec ≠ some "none" ∧ f.vcodec = some "none")),
      ∃ s, f.url = some s ∧ s ≠ "") :
    buildAudioList info.formats =
      ((info.formats.filter fun f =>
        decide (f.acodec ≠ some "none" ∧ f.vcodec = some "none")).map
        mkAudioFmt) ∧
    ∃ best,
      IsFirstMaxBy (fun f => f.asr.getD 0)
        (info.formats.filter fun f =>
          decide (f.acodec ≠ some "none" ∧ f.vcodec = some "none")) best ∧
      extract_info ydl u "audio" =
        .ok (resultDict info "audio" (optStr best.url)
          (buildAudioList info.formats)) := by
  refine ⟨buildAudioList_eq_filter_map info.formats, ?_⟩
  set l := info.formats.filter fun f =>
    decide (f.acodec ≠ some "none" ∧ f.vcodec = some "none") with hl
  obtain ⟨g, gs, hgl⟩ : ∃ g gs, l = g :: gs := by
    cases hll : l with
    | nil => exact absurd hll hne
    | cons a as => exact ⟨a, as, rfl⟩
  have hkey : ∀ f ∈ l, ∃ n : Int, f.asr = some n := by
    intro f hf
    cases ha : f.asr with
    | none => exact absurd ha (hint f hf)
    | some n => exact ⟨n, rfl⟩
  have hbuild : buildAudioList info.formats =
      mkAudioFmt g :: gs.map mkAudioFmt := by
    rw [buildAudioList_eq_filter_map, ← hl, hgl]
    rfl
  have hmemmk : ∀ x ∈ mkAudioFmt g :: gs.map mkAudioFmt,
      ∃ f, f ∈ l ∧ x = mkAudioFmt f := by
    intro x hx
    rcases List.mem_cons.mp hx with rfl | hx2
    · refine ⟨g, ?_, rfl⟩
      rw [hgl]
      exact List.mem_cons_self _ _
    · obtain ⟨f, hf, rfl⟩ := List.mem_map.mp hx2
      refine ⟨f, ?_, rfl⟩
      rw [hgl]
      exact List.mem_cons_of_mem _ hf
  have hgt : ∀ x ∈ mkAudioFmt g :: gs.map mkAudioFmt,
      ∀ y ∈ mkAudioFmt g :: gs.map mkAudioFmt,
      pyGtVal (audioKey x) (audioKey y) =
        .ok (decide (pyValToInt (audioKey y) < pyValToInt (audioKey x))) := by
    intro x hx y hy
    obtain ⟨fx, hfx, rfl⟩ := hmemmk x hx
    obtain ⟨fy, hfy, rfl⟩ := hmemmk y hy
    obtain ⟨nx, hnx⟩ := hkey fx hfx
    obtain ⟨ny, hny⟩ := hkey fy hfy
    rw [audioKey_mkAudioFmt, audioKey_mkAudioFmt, hnx, hny]
    rfl
  have hmax := pyMaxRun_eq_firstMaxBy pyGtVal audioKey
    (fun d => pyValToInt (audioKey d)) (mkAudioFmt g) (gs.map mkAudioFmt) hgt
  have hkeyfun : (fun f : RawFormat => pyValToInt (audioKey (mkAudioFmt f))) =
      fun f => f.asr.getD 0 := by
    funext f
    rw [audioKey_mkAudioFmt, pyValToInt_optInt]
  have hfm : firstMaxBy (fun d => pyValToInt (audioKey d)) (mkAudioFmt g)
      (gs.map mkAudioFmt) =
      mkAudioFmt (firstMaxBy (fun f : RawFormat => f.asr.getD 0) g gs) := by
    rw [firstMaxBy_map mkAudioFmt (fun d => pyValToInt (audioKey d)) g gs,
      hkeyfun]
  set bf := firstMaxBy (fun f : RawFormat => f.asr.getD 0) g gs with hbf
  have hbfmem : bf ∈ l := by
    rw [hgl]
    exact firstMaxBy_mem _ g gs
  obtain ⟨s, hs, hse⟩ := hurl bf hbfmem
  have hsel : selectFormats info "audio" =
      .ok (mkAudioFmt g :: gs.map mkAudioFmt, optStr bf.url) := by
    simp only [selectFormats, if_pos rfl, hbuild, hmax, hfm]
    rfl
  have hfalsy : pyFalsy (optStr bf.url) = false := by
    rw [hs]
    simp [optStr, pyFalsy, hse]
  refine ⟨bf, ?_, ?_⟩
  · rw [hgl]
    exact firstMaxBy_isFirstMax _ g gs
  · have hext : extract_info ydl u "audio" =
        .ok (resultDict info "audio" (optStr bf.url)
          (mkAudioFmt g :: gs.map mkAudioFmt)) := by
      simp only [extract_info, hy, hsel, hfalsy, Bool.false_eq_true, if_false]
    rw [hext, hbuild]

theorem audio_selector_spec_witness :
    (buildAudioList audioInfo.formats =
      ((audioInfo.formats.filter fun f =>
        decide (f.acodec ≠ some "none" ∧ f.vcodec = some "none")).map
        mkAudioFmt) ∧
    ∃ best,
      IsFirstMaxBy (fun f => f.asr.getD 0)
        (audioInfo.formats.filter fun f =>
          decide (f.acodec ≠ some "none" ∧ f.vcodec = some "none")) best ∧
      extract_info ydlAudio "http://x" "audio" =
        .ok (resultDict audioInfo "audio" (optStr best.url)
          (buildAudioList audioInfo.formats))) ∧
    extract_info ydlAudio "http://x" "audio" =
      .ok (resultDict audioInfo "audio" (.str "u48000")
        (buildAudioList audioInfo.formats)) :=
  ⟨audio_selector_spec ydlAudio "http://x" audioInfo rfl
    (fun h => List.noConfusion h)
    (by decide)
    (by
      intro f hf
      have hfl : (audioInfo.formats.filter fun f =>
          decide (f.acodec ≠ some "none" ∧ f.vcodec = some "none")) =
          [audioFmt1, audioFmt2] := rfl
      rw [hfl] at hf
      rcases List.mem_cons.mp hf with rfl | hf2
      · exact ⟨"u44100", rfl, by decide⟩
      · rcases List.mem_cons.mp hf2 with rfl | hf3
        · exact ⟨"u48000", rfl, by decide⟩
        · exact absurd hf3 (List.not_mem_nil _)),
   rfl⟩

/-- Claim C2: for every video request, the kept candidates are exactly the
raw formats carrying both an audio and a video track (muxed streams; the
"none" codec sentinel marks an absent track), in their original order; and
from a non-empty candidate list whose heights, frame rates and urls are
present, the entry maximising the pair (height, frameRate) in lexicographic
order is selected — ties broken by first occurrence — and its url becomes
the `stream_url` of the result. -/
theorem video_selector_spec (ydl : String → Except PyErr (Option RawInfo))
    (u : String) (info : RawInfo)
    (hy : ydl u = .ok (some info))
    (hne : (info.formats.filter fun f =>
      decide (f.vcodec ≠ some "none" ∧ f.acodec ≠ some "none")) ≠ [])
    (hint : ∀ f ∈ (info.formats.filter fun f =>
        decide (f.vcodec ≠ some "none" ∧ f.acodec ≠ some "none")),
      f.height ≠ Option.none ∧ f.fps ≠ Option.none)
    (hurl : ∀ f ∈ (info.formats.filter fun f =>
        decide (f.vcodec ≠ some "none" ∧ f.acodec ≠ some "none")),
      ∃ s, f.url = some s ∧ s ≠ "") :
    buildVideoList info.formats =
      ((info.formats.filter fun f =>
        decide (f.vcodec ≠ some "none" ∧ f.acodec ≠ some "none")).map
        mkVideoFmt) ∧
    ∃ best,
      IsFirstMaxBy (fun f : RawFormat => toLex (f.height.getD 0, f.fps.getD 0))
        (info.formats.filter fun f =>
          decide (f.vcodec ≠ some "none" ∧ f.acodec ≠ some "none")) best ∧
      extract_info ydl u "video" =
        .ok (resultDict info "video" (optStr best.url)
          (buildVideoList info.formats)) := by
  refine ⟨buildVideoList_eq_filter_map info.formats, ?_⟩
  set l := info.formats.filter fun f =>
    decide (f.vcodec ≠ some "none" ∧ f.acodec ≠ some "none") with hl
  obtain ⟨g, gs, hgl⟩ : ∃ g gs, l = g :: gs := by
    cases hll : l with
    | nil => exact absurd hll hne
    | cons a as => exact ⟨a, as, rfl⟩
  have hkey : ∀ f ∈ l, ∃ nh nf : Int, f.height = some nh ∧ f.fps = some nf := by
    intro f hf
    cases hh : f.height with
    | none => exact absurd hh (hint f hf).1
    | some nh =>
      cases hp : f.fps with
      | none => exact absurd hp (hint f hf).2
      | some nf => exact ⟨nh, nf, rfl, rfl⟩
  have hbuild : buildVideoList info.formats =
      mkVideoFmt g :: gs.map mkVideoFmt := by
    rw [buildVideoList_eq_filter_map, ← hl, hgl]
    rfl
  have hmemmk : ∀ x ∈ mkVideoFmt g :: gs.map mkVideoFmt,
      ∃ f, f ∈ l ∧ x = mkVideoFmt f := by
    intro x hx
    rcases List.mem_cons.mp hx with rfl | hx2
    · refine ⟨g, ?_, rfl⟩
      rw [hgl]
      exact List.mem_cons_self _ _
    · obtain ⟨f, hf, rfl⟩ := List.mem_map.mp hx2
      refine ⟨f, ?_, rfl⟩
      rw [hgl]
      exact List.mem_cons_of_mem _ hf
  have hgt : ∀ x ∈ mkVideoFmt g :: gs.map mkVideoFmt,
      ∀ y ∈ mkVideoFmt g :: gs.map mkVideoFmt,
      pyGtPair (videoKey x) (videoKey y) =
        .ok (decide
          ((toLex (pyValToInt (videoKey y).1, pyValToInt (videoKey y).2) :
              Lex (Int × Int)) <
            toLex (pyValToInt (videoKey x).1, pyValToInt (videoKey x).2))) := by
    intro x hx y hy
    obtain ⟨fx, hfx, rfl⟩ := hmemmk x hx
    obtain ⟨fy, hfy, rfl⟩ := hmemmk y hy
    obtain ⟨hx1, fx2, hnx1, hnx2⟩ := hkey fx hfx
    obtain ⟨hy1, fy2, hny1, hny2⟩ := hkey fy hfy
    rw [videoKey_mkVideoFmt, videoKey_mkVideoFmt, hnx1, hnx2, hny1, hny2]
    exact pyGtPair_int hx1 fx2 hy1 fy2
  have hmax := pyMaxRun_eq_firstMaxBy pyGtPair videoKey
    (fun d => (toLex (pyValToInt (videoKey d).1, pyValToInt (videoKey d).2) :
      Lex (Int × Int)))
    (mkVideoFmt g) (gs.map mkVideoFmt) hgt
  have hkeyfun : (fun f : RawFormat =>
      (toLex (pyValToInt (videoKey (mkVideoFmt f)).1,
        pyValToInt (videoKey (mkVideoFmt f)).2) : Lex (Int × Int))) =
      fun f : RawFormat => toLex (f.height.getD 0, f.fps.getD 0) := by
    funext f
    rw [videoKey_mkVideoFmt]
    show (toLex (pyValToInt (optInt f.height), pyValToInt (optInt f.fps)) :
      Lex (Int × Int)) = _
    rw [pyValToInt_optInt, pyValToInt_optInt]
  have hfm : firstMaxBy
      (fun d => (toLex (pyValToInt (videoKey d).1, pyValToInt (videoKey d).2) :
        Lex (Int × Int)))
      (mkVideoFmt g) (gs.map mkVideoFmt) =
      mkVideoFmt (firstMaxBy
        (fun f : RawFormat => toLex (f.height.getD 0, f.fps.getD 0)) g gs) := by
    rw [firstMaxBy_map mkVideoFmt
      (fun d => (toLex (pyValToInt (videoKey d).1, pyValToInt (videoKey d).2) :
        Lex (Int × Int))) g gs, hkeyfun]
  set bf := firstMaxBy
    (fun f : RawFormat => toLex (f.height.getD 0, f.fps.getD 0)) g gs with hbf
  have hbfmem : bf ∈ l := by
    rw [hgl]
    exact firstMaxBy_mem _ g gs
  obtain ⟨s, hs, hse⟩ := hurl bf hbfmem
  have hsel : selectFormats info "video" =
      .ok (mkVideoFmt g :: gs.map mkVideoFmt, optStr bf.url) := by
    simp only [selectFormats, if_pos rfl, hbuild, hmax, hfm]
    rfl
  have hfalsy : pyFalsy (optStr bf.url) = false := by
    rw [hs]
    simp [optStr, pyFalsy, hse]
  refine ⟨bf, ?_, ?_⟩
  · rw [hgl]
    exact firstMaxBy_isFirstMax _ g gs
  · have hext : extract_info ydl u "video" =
        .ok (resultDict info "video" (optStr bf.url)
          (mkVideoFmt g :: gs.map mkVideoFmt)) := by
      simp only [extract_info, hy, hsel, hfalsy, Bool.false_eq_true, if_false]
    rw [hext, hbuild]

theorem video_selector_spec_witness :
    (buildVideoList videoInfo.formats =
      ((videoInfo.formats.filter fun f =>
        decide (f.vcodec ≠ some "none" ∧ f.acodec ≠ some "none")).map
        mkVideoFmt) ∧
    ∃ best,
      IsFirstMaxBy (fun f : RawFormat => toLex (f.height.getD 0, f.fps.getD 0))
        (videoInfo.formats.filter fun f =>
          decide (f.vcodec ≠ some "none" ∧ f.acodec ≠ some "none")) best ∧
      extract_info ydlVideo "http://x" "video" =
        .ok (resultDict videoInfo "video" (optStr best.url)
          (buildVideoList videoInfo.formats))) ∧
    extract_info ydlVideo "http://x" "video" =
      .ok (resultDict videoInfo "video" (.str "u1080")
        (buildVideoList videoInfo.formats)) :=
  ⟨video_selector_spec ydlVideo "http://x" videoInfo rfl
    (fun h => List.noConfusion h)
    (by decide)
    (by
      intro f hf
      have hfl : (videoInfo.formats.filter fun f =>
          decide (f.vcodec ≠ some "none" ∧ f.acodec ≠ some "none")) =
          [videoFmt720, videoFmt1080] := rfl
      rw [hfl] at hf
      rcases List.mem_cons.mp hf with rfl | hf2
      · exact ⟨"u720", rfl, by decide⟩
      · rcases List.mem_cons.mp hf2 with rfl | hf3
        · exact ⟨"u1080", rfl, by decide⟩
        · exact absurd hf3 (List.not_mem_nil _)),
   rfl⟩

/-- Claim C9 (amended): every built audio candidate dict contains the `asr`
key and every built video candidate dict contains the `height` and `fps`
keys — possibly bound to null — so the key function's fallback default 0 is
never used; and for every authenticated, validated audio download whose
candidate list has at least two entries, one of whose sample rates is null,
the max-by-key comparison raises an unhandled TypeError and the response is
a 500. For video a null value raises only when the lexicographic tuple
comparison actually reaches it; a null fps masked by a decisive height
comparison raises nothing (see the counterexample). -/
theorem null_quality_typeerror (api_key u : String)
    (ydl : String → Except PyErr (Option RawInfo))
    (req : DownloadRequest) (data : DownloadBody) (info : RawInfo)
    (c : List (String × PyVal)) (cs : List (List (String × PyVal)))
    (hk : req.apiKey = some api_key) (hb : req.body = some data)
    (hu : data.url = some u) (hne : u ≠ "")
    (hmt : pyLower (data.type.getD "audio") = "audio")
    (hscheme : pyStartsWith u "http://" ∨ pyStartsWith u "https://")
    (hy : ydl u = .ok (some info))
    (hcands : buildAudioList info.formats = c :: cs) (hcs : cs ≠ [])
    (hnull : ∃ d ∈ c :: cs, audioKey d = PyVal.none) :
    (∀ f : RawFormat, "asr" ∈ (mkAudioFmt f).map Prod.fst ∧
      "height" ∈ (mkVideoFmt f).map Prod.fst ∧
      "fps" ∈ (mkVideoFmt f).map Prod.fst) ∧
    ∃ m, download api_key (extract_info ydl) req =
      (⟨500, [("error", .str "An unexpected error occurred"),
              ("details", .str m)]⟩, some (u, "audio")) := by
  constructor
  · intro f
    refine ⟨?_, ?_, ?_⟩ <;> simp [mkAudioFmt, mkVideoFmt]
  · have hshape : ∀ x ∈ c :: cs,
        audioKey x = PyVal.none ∨ ∃ n, audioKey x = PyVal.int n := by
      intro x hx
      rw [← hcands] at hx
      rw [buildAudioList_eq_filter_map] at hx
      obtain ⟨f, _, rfl⟩ := List.mem_map.mp hx
      rw [audioKey_mkAudioFmt]
      cases f.asr with
      | none => exact Or.inl rfl
      | some n => exact Or.inr ⟨n, rfl⟩
    have hmaxerr := pyMaxRun_error_of_none audioKey c cs hshape hnull hcs
    have hsel : selectFormats info "audio" =
        .error (.typeError "unsupported operand types for comparison") := by
      simp only [selectFormats, if_pos rfl, hcands, hmaxerr, if_true]
    have hext : extract_info ydl u "audio" =
        .error (.typeError "unsupported operand types for comparison") := by
      simp only [extract_info, hy, hsel]
    refine ⟨"unsupported operand types for comparison", ?_⟩
    rw [download_valid_reaches_extract api_key u "audio" (extract_info ydl)
      req data hk hb hu hne hmt (Or.inl rfl) hscheme, hext]

theorem null_quality_typeerror_witness :
    (∀ f : RawFormat, "asr" ∈ (mkAudioFmt f).map Prod.fst ∧
      "height" ∈ (mkVideoFmt f).map Prod.fst ∧
      "fps" ∈ (mkVideoFmt f).map Prod.fst) ∧
    ∃ m, download "k" (extract_info ydlAudioNull)
      { apiKey := some "k", body := some { url := some "http://x" } } =
      (⟨500, [("error", .str "An unexpected error occurred"),
              ("details", .str m)]⟩, some ("http://x", "audio")) :=
  null_quality_typeerror "k" "http://x" ydlAudioNull
    { apiKey := some "k", body := some { url := some "http://x" } }
    { url := some "http://x" } audioInfoNull
    (mkAudioFmt audioFmtNull) [mkAudioFmt audioFmt2]
    rfl rfl rfl (by decide) rfl (Or.inl rfl) rfl rfl
    (fun h => List.noConfusion h)
    ⟨mkAudioFmt audioFmtNull, List.Mem.head _, rfl⟩

/-- Claim C9 counterexample: a video request with two muxed candidates with
at least one null quality value (fps) and distinct heights: the tuple
comparison is decided on the heights alone, no TypeError is raised, and
POST /api/download answers 200 with a selected format — not 500. -/
theorem null_quality_typeerror_cex :
    (buildVideoList videoInfoNull.formats).length = 2 ∧
    (∃ d ∈ buildVideoList videoInfoNull.formats,
      pyGet d "fps" (.int 0) = PyVal.none) ∧
    download "k" (extract_info ydlVideoNull)
      { apiKey := some "k",
        body := some { url := some "http://x", type := some "video" } } =
      (⟨200, resultDict videoInfoNull "video" (.str "u1080")
        (buildVideoList videoInfoNull.formats)⟩,
       some ("http://x", "video")) :=
  ⟨rfl, ⟨mkVideoFmt videoFmtNoFps, List.Mem.head _, rfl⟩, rfl⟩

/-- Counting invariant of the modelled limiter: as long as neither limit is
reached, each served download call from an address bumps that address's
minute and day counters by one. -/
theorem serveDownloads_count (addr : String)
    (hs : List (Unit → HttpResponse × Option (String × String)))
    (st : LimiterState)
    (hd : st.dlMinute addr + hs.length ≤ 10)
    (hday : st.day addr + hs.length ≤ 100) :
    (serveDownloads st addr hs).dlMinute addr =
      st.dlMinute addr + hs.length ∧
    (serveDownloads st addr hs).day addr = st.day addr + hs.length := by
  induction hs generalizing st with
  | nil => simp [serveDownloads]
  | cons h hs ih =>
    simp only [List.length_cons] at hd hday
    have hpass : ¬ (10 ≤ st.dlMinute addr ∨ 100 ≤ st.day addr) := by
      push_neg
      exact ⟨by omega, by omega⟩
    have hstep : (serveLimited st addr .download h).2 =
        { st with
          dlMinute := fun a =>
            if a = addr then st.dlMinute a + 1 else st.dlMinute a,
          day := fun a => if a = addr then st.day a + 1 else st.day a } := by
      simp [serveLimited, hpass]
    obtain ⟨h1, h2⟩ := ih
      { st with
        dlMinute := fun a =>
          if a = addr then st.dlMinute a + 1 else st.dlMinute a,
        day := fun a => if a = addr then st.day a + 1 else st.day a }
      (by simp only []; simp; omega) (by simp only []; simp; omega)
    constructor
    · rw [serveDownloads, hstep, h1]
      simp
      omega
    · rw [serveDownloads, hstep, h2]
      simp
      omega

/-- Claim C10 (rate limiter modelled from the spec, since `flask_limiter`
is an external dependency; its configuration — download 10/minute, info
20/minute, global 100/day, keyed by client address — is in `you.py`): from
a fresh window, after any 10 download calls from one client address, the
11th download call from that address within the window is rejected with the
distinct 429 outcome, which is not a handled JSON-envelope response. -/
theorem rate_limit_eleventh_call (addr : String)
    (hs : List (Unit → HttpResponse × Option (String × String)))
    (h11 : Unit → HttpResponse × Option (String × String))
    (hlen : hs.length = 10) :
    (serveLimited (serveDownloads LimiterState.init addr hs) addr .download
      h11).1 = .rejected429 ∧
    ∀ r i, (ServeOutcome.rejected429 : ServeOutcome) ≠ .handled r i := by
  obtain ⟨h1, _⟩ := serveDownloads_count addr hs LimiterState.init
    (by simp [LimiterState.init, hlen]) (by simp [LimiterState.init, hlen])
  constructor
  · have hcond : 10 ≤ (serveDownloads LimiterState.init addr hs).dlMinute addr ∨
        100 ≤ (serveDownloads LimiterState.init addr hs).day addr := by
      left
      rw [h1]
      simp [LimiterState.init, hlen]
    simp [serveLimited, hcond]
  · intro r i h
    exact ServeOutcome.noConfusion h

theorem rate_limit_eleventh_call_witness :
    (serveLimited (serveDownloads LimiterState.init "1.2.3.4"
        (List.replicate 10 (fun _ => (⟨200, []⟩, Option.none))))
      "1.2.3.4" .download (fun _ => (⟨200, []⟩, Option.none))).1 =
      .rejected429 ∧
    ∀ r i, (ServeOutcome.rejected429 : ServeOutcome) ≠ .handled r i :=
  rate_limit_eleventh_call "1.2.3.4"
    (List.replicate 10 (fun _ => (⟨200, []⟩, Option.none)))
    (fun _ => (⟨200, []⟩, Option.none)) rfl

end YouApi
